import Mathlib

/-!
# Verification of metadata_sync against its specification

Shallow embedding of the `metadata_sync` repository (metadata_json.py,
metadata_record_creator.py, geophysics_survey_metadata_record_creator.py)
with proofs about the manifest store / drift detector and the
reconciliation engine's identity handling.

Conventions of the embedding:
* Python strings are Lean `String`s; byte content of files is modelled as a
  `String` of characters.
* Python `dict`s are association lists built with Python's insertion/update
  semantics (`pyDict`): first-insertion key order, last assignment wins.
* The filesystem is a map from absolute directory path to directory listing;
  every path argument is resolved against the current working directory the
  way the OS resolves it (`abspath`).
* Fallible operations return `Except String α`; an uncaught Python exception
  is `.error msg`.  Operations that touch the filesystem additionally return
  the (possibly updated) `FileSystem`, which survives a raised exception just
  as the real filesystem does.
-/

/-- Python truthiness of an optional string: `None` and `""` are falsy. -/
def pyFalsyOptStr : Option String → Bool
  | none => true
  | some s => s = ""

/-- Python truthiness (`if x:`) for an optional string value. -/
def pyTruthy (o : Option String) : Bool := ¬ pyFalsyOptStr o

/-- `str(x)` for an optional string: `str(None) = "None"`. -/
def pyStr : Option String → String
  | none => "None"
  | some s => s

/-- A path is absolute iff it starts with the separator. -/
def isAbsolute (p : String) : Bool := p.data.head? = some '/'

/-- `os.path.abspath` relative to a current working directory.
Normalization of already-absolute paths (collapsing of `.`/`..`/duplicate
separators) is not modelled: absolute inputs are assumed already normalized,
on which `os.path.abspath` is the identity. -/
def abspath (cwd p : String) : String :=
  if isAbsolute p then p else cwd ++ "/" ++ p

/-- Helper for `splitextExt`: strip the leading run of dots of a file name
(CPython's `splitext` refuses to treat leading dots as extension separators). -/
def dropLeadingDots : List Char → List Char
  | '.' :: rest => dropLeadingDots rest
  | l => l

/-- Helper for `splitextExt`: the suffix starting at the last dot, if any. -/
def extFromLastDot : List Char → Option (List Char)
  | [] => none
  | c :: rest =>
    match extFromLastDot rest with
    | some e => some e
    | none => if c = '.' then some (c :: rest) else none

/-- `os.path.splitext(name)[1]` for a bare file name: the extension starting at
the last dot, empty when there is no dot after the leading run of dots. -/
def splitextExt (name : String) : String :=
  match extFromLastDot (dropLeadingDots name.data) with
  | some e => String.mk e
  | none => ""

/-! ## MD5 digest model

`get_md5sums` streams each file through `hashlib.md5()` in 65536-byte blocks
(`file_as_blockiter` / `hash_bytestr_iter`).  The hasher state is modelled as
the bytes fed so far and `hexdigest()` as an injective `"md5:"` tagging of
that state, so the digest is a function of the full byte content of the file
(the model treats the hash as collision-free, which is the spec's intended
reading for accidental-change detection). -/

/-- Block size used by `file_as_blockiter`. -/
def md5BlockSize : Nat := 65536

/-- `file_as_blockiter`: split content into 65536-byte blocks.  The fuel
argument (initially `length + 1`) only bounds the recursion. -/
def fileBlocksAux : Nat → List Char → List (List Char)
  | 0, _ => []
  | _ + 1, [] => []
  | fuel + 1, l => l.take md5BlockSize :: fileBlocksAux fuel (l.drop md5BlockSize)

def fileBlocks (content : String) : List (List Char) :=
  fileBlocksAux (content.length + 1) content.data

/-- `hasher.hexdigest()` on a final hasher state. -/
def md5Hexdigest (state : List Char) : String := "md5:" ++ String.mk state

/-- The MD5 digest of a file's content, as computed by
`hash_bytestr_iter(file_as_blockiter(open(fname, 'rb')), hashlib.md5())`. -/
def md5OfContent (content : String) : String :=
  md5Hexdigest ((fileBlocks content).foldl (· ++ ·) [])

/-! ## Python dict model -/

/-- One Python dict assignment `d[k] = v`: update in place if the key exists,
else append at the end (insertion order is preserved). -/
def pyDictInsert (acc : List (String × String)) (kv : String × String) :
    List (String × String) :=
  if (acc.lookup kv.1).isSome then
    acc.map (fun p => if p.1 = kv.1 then (p.1, kv.2) else p)
  else acc ++ [kv]

/-- A Python dict built from a sequence of key/value pairs (dict comprehension
semantics: first-insertion key order, last assignment wins). -/
def pyDict (l : List (String × String)) : List (String × String) :=
  l.foldl pyDictInsert []

/-! ## Data model of metadata_json.py -/

/-- A regular file in a directory: byte content and ISO modification time. -/
structure FileInfo where
  content : String
  mtime : String
deriving DecidableEq

/-- One entry of the `files` list of `.metadata.json`. -/
structure FileRec where
  file : String
  md5 : String
  mtime : String
deriving DecidableEq

/-- The record persisted to `.metadata.json` by `write_json_metadata`. -/
structure MetadataDict where
  uuid : String
  time : String
  folder_path : String
  files : List FileRec
deriving DecidableEq

/-- A directory listing.  `files` and `subdirs` are the glob-visible entries in
enumeration order.  The `.metadata.json` sidecar is held apart in `metaJson`:
its name starts with a dot, so `glob('*')` never matches it and only
`write_json_metadata` / `read_json_metadata` touch it. -/
structure Dir where
  files : List (String × FileInfo)
  subdirs : List String
  metaJson : Option MetadataDict
deriving DecidableEq

/-- The filesystem: current working directory and directories keyed by
absolute path. -/
structure FileSystem where
  cwd : String
  dirs : List (String × Dir)
deriving DecidableEq

/-- Resolve a path and look the directory up (what the OS does for any
file operation on `p`). -/
def FileSystem.getDir (fs : FileSystem) (p : String) : Option Dir :=
  fs.dirs.lookup (abspath fs.cwd p)

/-- Replace the directory stored at (the resolution of) `p`. -/
def FileSystem.setDir (fs : FileSystem) (p : String) (d : Dir) : FileSystem :=
  { fs with
    dirs := fs.dirs.map (fun kv => if kv.1 = abspath fs.cwd p then (kv.1, d) else kv) }

/-- `DEFAULT_EXCLUDED_EXTENSIONS` from metadata_json.py. -/
def DEFAULT_EXCLUDED_EXTENSIONS : List String :=
  [".bck", ".md5", ".uuid", ".json", ".tmp"]

/-- `excluded_extensions = excluded_extensions or DEFAULT_EXCLUDED_EXTENSIONS`:
`None` and the empty list are falsy and fall back to the default. -/
def pyOrExts : Option (List String) → List String
  | none => DEFAULT_EXCLUDED_EXTENSIONS
  | some l => if l = [] then DEFAULT_EXCLUDED_EXTENSIONS else l

/-- `glob(os.path.join(md5dir, '*'))`: the directory entries in enumeration
order.  The pattern `'*'` does not match names starting with a dot, so hidden
files and hidden subdirectories are skipped.  Files carry their `FileInfo`,
subdirectories carry `none`; their relative interleaving is irrelevant because
the subsequent `os.path.isfile` filter drops the subdirectories. -/
def globStar (d : Dir) : List (String × Option FileInfo) :=
  (d.files.filter (fun nf => nf.1.data.head? ≠ some '.')).map
      (fun nf => (nf.1, some nf.2))
    ++ (d.subdirs.filter (fun n => n.data.head? ≠ some '.')).map (fun n => (n, none))

/-- `get_filtered_md5sum_dict(md5dir, excluded_extensions)`: glob the
directory, keep regular files whose extension is not excluded, and map each
base name to the MD5 digest of its content (`get_md5sums` keys the dict by
`os.path.basename`). -/
def get_filtered_md5sum_dict (d : Dir) (excluded_extensions : List String) :
    List (String × String) :=
  pyDict ((globStar d).filterMap (fun e =>
    match e.2 with
    | some fi =>
      if excluded_extensions.contains (splitextExt e.1) then none
      else some (e.1, md5OfContent fi.content)
    | none => none))

/-- The `metadata_dict` value assembled by `write_json_metadata`: identity,
capture time, absolute folder path, and one record per file of the filtered
digest dict, sorted by file name.  The keys of the digest dict name existing
files, so the inner lookups cannot miss (the `.getD ""` defaults are
unreachable). -/
def build_metadata_dict (uuid folderAbs now : String) (d : Dir)
    (exts : List String) : MetadataDict :=
  let md5_dict := get_filtered_md5sum_dict d exts
  { uuid := uuid
    time := now
    folder_path := folderAbs
    files := (List.insertionSort (· ≤ ·) (md5_dict.map (·.1))).map
      (fun filename =>
        { file := filename
          md5 := (md5_dict.lookup filename).getD ""
          mtime := ((d.files.lookup filename).map (·.mtime)).getD "" }) }

/-- `write_json_metadata(uuid, dataset_folder, excluded_extensions)`:
assert the folder is a directory, compute the filtered digest dict, and write
`{uuid, time, folder_path: abspath, files: sorted-by-name records}` to the
`.metadata.json` sidecar.  `now` stands for `get_iso_utcnow()`.  The digest
dict is computed before the sidecar is (over)written. -/
def write_json_metadata (uuid dataset_folder : String)
    (excluded_extensions : Option (List String)) (now : String)
    (fs : FileSystem) : Except String Unit × FileSystem :=
  let exts := pyOrExts excluded_extensions
  match fs.getDir dataset_folder with
  | none => (.error "dataset_folder is not a valid directory.", fs)
  | some d =>
    let metadata_dict :=
      build_metadata_dict uuid (abspath fs.cwd dataset_folder) now d exts
    (.ok (), fs.setDir dataset_folder { d with metaJson := some metadata_dict })

/-- `read_json_metadata(dataset_folder)`: assert the folder is a directory and
load the `.metadata.json` record (an absent sidecar raises `IOError`). -/
def read_json_metadata (dataset_folder : String) (fs : FileSystem) :
    Except String MetadataDict × FileSystem :=
  match fs.getDir dataset_folder with
  | none => (.error "dataset_folder is not a valid directory.", fs)
  | some d =>
    match d.metaJson with
    | none => (.error "IOError: .metadata.json not found", fs)
    | some md => (.ok md, fs)

/-! ### Drift report messages -/

def uuidChangedMsg (old new : String) : String :=
  "UUID Changed from " ++ old ++ " to " ++ new

def folderChangedMsg (old new : String) : String :=
  "Dataset folder Changed from " ++ old ++ " to " ++ new

def renamedMsg (old new : String) : String :=
  "File " ++ old ++ " has been renamed to " ++ new

def missingMsg (f : String) : String :=
  "File " ++ f ++ " does not exist"

def md5ChangedMsg (f old new : String) : String :=
  "MD5 Checksum for file " ++ f ++ " has changed from " ++ old ++ " to " ++ new

/-- The body of the per-saved-file loop of `check_json_metadata`: classify one
stored entry against the freshly calculated digest dict.  A missing current
digest with at least one digest match is reported as a rename to the first
match in dict order (`new_filenames[0]`); with no match, as missing; a
present current digest is compared for modification. -/
def classify_saved_file (calculated_md5_dict : List (String × String))
    (saved_filename saved_md5sum : String) : List String :=
  let calculated_md5sum := calculated_md5_dict.lookup saved_filename
  if pyFalsyOptStr calculated_md5sum then
    let new_filenames :=
      (calculated_md5_dict.filter (fun kv => kv.2 = saved_md5sum)).map (·.1)
    if new_filenames ≠ [] then
      [renamedMsg saved_filename (new_filenames.headD "")]
    else
      [missingMsg saved_filename]
  else
    if saved_md5sum ≠ calculated_md5sum.getD "" then
      [md5ChangedMsg saved_filename saved_md5sum (calculated_md5sum.getD "")]
    else []

/-- The report list built by `check_json_metadata` before it decides whether to
raise: UUID comparison, verbatim folder-path comparison, then the per-entry
classification of every stored file in stored (dict) order.  The two failure
modes of the inlined `read_json_metadata` call (invalid directory, absent
sidecar) are the same two errors here; after a successful read the directory
exists, so `get_filtered_md5sum_dict` runs on it. -/
def check_report (uuid dataset_folder : String)
    (excluded_extensions : Option (List String)) (fs : FileSystem) :
    Except String (List String) × FileSystem :=
  let exts := pyOrExts excluded_extensions
  match fs.getDir dataset_folder with
  | none => (.error "dataset_folder is not a valid directory.", fs)
  | some d =>
    match d.metaJson with
    | none => (.error "IOError: .metadata.json not found", fs)
    | some metadata_dict =>
      let report0 : List String :=
        (if metadata_dict.uuid ≠ uuid then
          [uuidChangedMsg metadata_dict.uuid uuid] else [])
        ++ (if metadata_dict.folder_path ≠ dataset_folder then
          [folderChangedMsg metadata_dict.folder_path dataset_folder] else [])
      let calculated_md5_dict := get_filtered_md5sum_dict d exts
      let saved_md5_dict :=
        pyDict (metadata_dict.files.map (fun fr => (fr.file, fr.md5)))
      let report := report0 ++
        (saved_md5_dict.map
          (fun kv => classify_saved_file calculated_md5_dict kv.1 kv.2)).flatten
      (.ok report, fs)

/-- `check_json_metadata(uuid, dataset_folder, excluded_extensions)`: build the
report list and raise `Exception('\n'.join(report_list))` iff it is nonempty.
The filesystem (in particular the stored sidecar) is returned unchanged. -/
def check_json_metadata (uuid dataset_folder : String)
    (excluded_extensions : Option (List String)) (fs : FileSystem) :
    Except String Unit × FileSystem :=
  match check_report uuid dataset_folder excluded_extensions fs with
  | (.error e, fs1) => (.error e, fs1)
  | (.ok report_list, fs1) =>
    if report_list ≠ [] then
      (.error (String.intercalate "\n" report_list), fs1)
    else (.ok (), fs1)

/-! ## Helper lemmas about the embedding -/

theorem fileBlocksAux_foldl (fuel : Nat) :
    ∀ (l acc : List Char), l.length < fuel →
      (fileBlocksAux fuel l).foldl (· ++ ·) acc = acc ++ l := by
  induction fuel with
  | zero => intro l acc h; omega
  | succ n ih =>
    intro l acc h
    cases l with
    | nil => simp [fileBlocksAux]
    | cons c cs =>
      have heq : fileBlocksAux (n + 1) (c :: cs) =
          (c :: cs).take md5BlockSize ::
            fileBlocksAux n ((c :: cs).drop md5BlockSize) := rfl
      rw [heq]
      simp only [List.foldl_cons]
      rw [ih _ _ (by
        simp only [List.length_drop, List.length_cons, md5BlockSize]
        simp only [List.length_cons] at h
        omega)]
      rw [List.append_assoc, List.take_append_drop]

theorem md5OfContent_eq (c : String) : md5OfContent c = "md5:" ++ c := by
  have h : (fileBlocks c).foldl (· ++ ·) [] = c.data := by
    have := fileBlocksAux_foldl (c.length + 1) c.data [] (by
      have : c.length = c.data.length := rfl
      omega)
    simpa using this
  rw [md5OfContent, fileBlocks] at *
  rw [h]
  show "md5:" ++ String.mk c.data = "md5:" ++ c
  cases c
  rfl

theorem md5OfContent_ne_empty (c : String) : md5OfContent c ≠ "" := by
  rw [md5OfContent_eq]
  intro h
  have h2 := congrArg String.data h
  rw [String.data_append] at h2
  have h3 : ("md5:" : String).data = ['m', 'd', '5', ':'] := rfl
  rw [h3] at h2
  simp at h2

theorem data_head?_append (p s : String) (c : Char) (h : p.data.head? = some c) :
    (p ++ s).data.head? = some c := by
  rw [String.data_append]
  cases hp : p.data with
  | nil => rw [hp] at h; simp at h
  | cons x t =>
    rw [hp] at h
    simp at h
    simp [h]

theorem uuidChangedMsg_head (a b : String) :
    (uuidChangedMsg a b).data.head? = some 'U' := by
  unfold uuidChangedMsg
  exact data_head?_append _ _ _ (data_head?_append _ _ _ (data_head?_append _ _ _ rfl))

theorem folderChangedMsg_head (a b : String) :
    (folderChangedMsg a b).data.head? = some 'D' := by
  unfold folderChangedMsg
  exact data_head?_append _ _ _ (data_head?_append _ _ _ (data_head?_append _ _ _ rfl))

theorem renamedMsg_head (a b : String) :
    (renamedMsg a b).data.head? = some 'F' := by
  unfold renamedMsg
  exact data_head?_append _ _ _ (data_head?_append _ _ _ (data_head?_append _ _ _ rfl))

theorem missingMsg_head (f : String) :
    (missingMsg f).data.head? = some 'F' := by
  unfold missingMsg
  exact data_head?_append _ _ _ (data_head?_append _ _ _ rfl)

theorem md5ChangedMsg_head (f a b : String) :
    (md5ChangedMsg f a b).data.head? = some 'M' := by
  unfold md5ChangedMsg
  exact data_head?_append _ _ _ (data_head?_append _ _ _ (data_head?_append _ _ _
    (data_head?_append _ _ _ (data_head?_append _ _ _ rfl))))

theorem classify_saved_file_head (cm : List (String × String)) (f d : String) :
    ∀ x ∈ classify_saved_file cm f d,
      x.data.head? = some 'F' ∨ x.data.head? = some 'M' := by
  intro x hx
  simp only [classify_saved_file] at hx
  split at hx
  · split at hx
    · simp at hx
      subst hx
      exact Or.inl (renamedMsg_head _ _)
    · simp at hx
      subst hx
      exact Or.inl (missingMsg_head _)
  · split at hx
    · simp at hx
      subst hx
      exact Or.inr (md5ChangedMsg_head _ _ _)
    · simp at hx

theorem keys_map_replace (acc : List (String × String)) (k v : String) :
    (acc.map (fun p => if p.1 = k then (p.1, v) else p)).map (·.1) =
      acc.map (·.1) := by
  induction acc with
  | nil => rfl
  | cons p t ih =>
    simp only [List.map_cons, ih, List.cons.injEq, and_true]
    split <;> rfl

theorem pyDictInsert_keys (acc : List (String × String)) (kv : String × String) :
    (pyDictInsert acc kv).map (·.1) =
      if (acc.lookup kv.1).isSome then acc.map (·.1)
      else acc.map (·.1) ++ [kv.1] := by
  unfold pyDictInsert
  split
  · rw [keys_map_replace]
  · simp

theorem foldl_pyDictInsert_keys_nodup (l : List (String × String)) :
    ∀ acc : List (String × String), ((acc.map (·.1)).Nodup) →
      (((l.foldl pyDictInsert acc).map (·.1)).Nodup) := by
  induction l with
  | nil => intro acc h; simpa using h
  | cons kv t ih =>
    intro acc h
    simp only [List.foldl_cons]
    apply ih
    rw [pyDictInsert_keys]
    split
    · exact h
    · rename_i hnone
      simp only [Option.isSome_iff_exists] at hnone
      push_neg at hnone
      have hkey : kv.1 ∉ acc.map (·.1) := by
        intro hmem
        simp only [List.mem_map] at hmem
        obtain ⟨p, hp, hpk⟩ := hmem
        have : acc.lookup kv.1 = none := Option.eq_none_iff_forall_not_mem.mpr
          (fun b hb => hnone b hb)
        rw [List.lookup_eq_none_iff] at this
        have := this p hp
        simp [← hpk] at this
      simp [List.nodup_append, h, hkey]

theorem pyDict_keys_nodup (l : List (String × String)) :
    ((pyDict l).map (·.1)).Nodup :=
  foldl_pyDictInsert_keys_nodup l [] (by simp)

theorem foldl_pyDictInsert_eq (l : List (String × String)) :
    ∀ acc : List (String × String), (((acc ++ l).map (·.1)).Nodup) →
      l.foldl pyDictInsert acc = acc ++ l := by
  induction l with
  | nil => intro acc _; simp
  | cons kv t ih =>
    intro acc h
    simp only [List.foldl_cons]
    have hnotin : kv.1 ∉ acc.map (·.1) := by
      intro hmem
      simp only [List.map_append, List.nodup_append] at h
      exact h.2.2 hmem (List.mem_map_of_mem (·.1) (List.mem_cons_self kv t))
    have hlook : acc.lookup kv.1 = none := by
      rw [List.lookup_eq_none_iff]
      intro p hp
      simp only [bne_iff_ne, ne_eq]
      intro hk
      exact hnotin (by simpa [hk] using List.mem_map_of_mem (·.1) hp)
    have hins : pyDictInsert acc kv = acc ++ [kv] := by
      unfold pyDictInsert
      rw [hlook]
      simp
    rw [hins, ih (acc ++ [kv]) (by simpa using h)]
    simp

theorem pyDict_eq_self (l : List (String × String))
    (h : (l.map (·.1)).Nodup) : pyDict l = l :=
  foldl_pyDictInsert_eq l [] (by simpa using h)

theorem pyDictInsert_values_sub (acc : List (String × String))
    (kv : String × String) :
    ∀ p ∈ pyDictInsert acc kv, p.2 ∈ acc.map (·.2) ∨ p.2 = kv.2 := by
  intro p hp
  unfold pyDictInsert at hp
  split at hp
  · simp only [List.mem_map] at hp
    obtain ⟨q, hq, hqe⟩ := hp
    by_cases hqk : q.1 = kv.1
    · right
      rw [if_pos hqk] at hqe
      rw [← hqe]
    · left
      rw [if_neg hqk] at hqe
      exact hqe ▸ List.mem_map_of_mem (·.2) hq
  · simp only [List.mem_append, List.mem_singleton] at hp
    rcases hp with hp | hp
    · exact Or.inl (List.mem_map_of_mem (·.2) hp)
    · exact Or.inr (by rw [hp])

theorem foldl_pyDictInsert_values_sub (l : List (String × String)) :
    ∀ acc : List (String × String), ∀ p ∈ l.foldl pyDictInsert acc,
      p.2 ∈ acc.map (·.2) ∨ p.2 ∈ l.map (·.2) := by
  induction l with
  | nil => intro acc p hp; exact Or.inl (List.mem_map_of_mem (·.2) hp)
  | cons kv t ih =>
    intro acc p hp
    simp only [List.foldl_cons] at hp
    rcases ih (pyDictInsert acc kv) p hp with h | h
    · simp only [List.mem_map] at h
      obtain ⟨q, hq, hqe⟩ := h
      rcases pyDictInsert_values_sub acc kv q hq with h2 | h2
      · exact Or.inl (hqe ▸ h2)
      · exact Or.inr (by simp [← hqe, h2])
    · exact Or.inr (by simp [h])

/-- Every value stored in a Python dict came from one of the inserted pairs. -/
theorem pyDict_values_sub (l : List (String × String)) :
    ∀ p ∈ pyDict l, p.2 ∈ l.map (·.2) := by
  intro p hp
  rcases foldl_pyDictInsert_values_sub l [] p hp with h | h
  · simp at h
  · exact h

theorem lookup_of_mem_nodup {β : Type} {l : List (String × β)}
    (h : (l.map (·.1)).Nodup) {kv : String × β} (hm : kv ∈ l) :
    l.lookup kv.1 = some kv.2 := by
  obtain ⟨k, v⟩ := kv
  induction l with
  | nil => simp at hm
  | cons p t ih =>
    obtain ⟨a, b⟩ := p
    simp only [List.map_cons, List.nodup_cons] at h
    rcases List.mem_cons.mp hm with he | ht
    · rw [Prod.mk.injEq] at he
      obtain ⟨rfl, rfl⟩ := he
      simp [List.lookup_cons]
    · have hk : k ∈ t.map (·.1) := List.mem_map_of_mem (·.1) ht
      have hne : (k == a) = false := by
        rw [beq_eq_false_iff_ne]
        intro hka
        exact h.1 (hka ▸ hk)
      simp only [List.lookup_cons, hne, cond_false]
      exact ih h.2 ht

theorem lookup_map_replace (l : List (String × Dir)) (k : String) (d : Dir) :
    (l.map (fun kv => if kv.1 = k then (kv.1, d) else kv)).lookup k =
      if (l.lookup k).isSome then some d else none := by
  induction l with
  | nil => simp
  | cons p t ih =>
    obtain ⟨a, b⟩ := p
    by_cases hp : a = k
    · subst hp
      simp [List.lookup_cons]
    · have hba : (k == a) = false := by
        rw [beq_eq_false_iff_ne]
        exact fun h => hp h.symm
      simp only [List.map_cons]
      rw [if_neg hp]
      simp only [List.lookup_cons, hba, cond_false]
      rw [ih]

/-- `setDir` stores the directory at the resolved path: looking up that path
again yields the updated directory (when it existed). -/
theorem getDir_setDir (fs : FileSystem) (p : String) (d : Dir)
    (h : (fs.getDir p).isSome) : (fs.setDir p d).getDir p = some d := by
  unfold FileSystem.getDir FileSystem.setDir at *
  rw [lookup_map_replace, if_pos h]

theorem filterMap_ite_none {α β : Type} (p : α → Bool) (g : α → β) (l : List α) :
    l.filterMap (fun a => if p a then none else some (g a)) =
      (l.filter (fun a => ¬ p a)).map g := by
  induction l with
  | nil => rfl
  | cons x t ih =>
    by_cases hx : p x
    · simp [List.filterMap_cons, List.filter_cons, hx, ih]
    · simp [List.filterMap_cons, List.filter_cons, hx, ih]

theorem filterMap_const_none {α β : Type} (l : List α) :
    l.filterMap (fun _ => (none : Option β)) = [] := by
  induction l with
  | nil => rfl
  | cons x t ih => simp [List.filterMap_cons, ih]

/-- The glob-visible regular files kept by the extension filter, with the
pipeline's filters expanded. -/
theorem get_filtered_md5sum_dict_eq (d : Dir) (exts : List String) :
    get_filtered_md5sum_dict d exts =
      pyDict (((d.files.filter (fun nf => nf.1.data.head? ≠ some '.')).filter
          (fun nf => ¬ exts.contains (splitextExt nf.1))).map
          (fun nf => (nf.1, md5OfContent nf.2.content))) := by
  unfold get_filtered_md5sum_dict globStar
  rw [List.filterMap_append]
  congr 1
  rw [List.filterMap_map, List.filterMap_map]
  have h2 : (d.subdirs.filter (fun n => n.data.head? ≠ some '.')).filterMap
      ((fun (e : String × Option FileInfo) =>
        match e.2 with
        | some fi =>
          if exts.contains (splitextExt e.1) then none
          else some (e.1, md5OfContent fi.content)
        | none => none) ∘ (fun n => (n, none))) = [] := by
    rw [show ((fun (e : String × Option FileInfo) =>
        match e.2 with
        | some fi =>
          if exts.contains (splitextExt e.1) then none
          else some (e.1, md5OfContent fi.content)
        | none => none) ∘ (fun n => (n, none)))
      = fun _ => none from rfl]
    exact filterMap_const_none _
  rw [h2, List.append_nil]
  exact filterMap_ite_none _ _ _

theorem check_report_snd (uuid dataset_folder : String)
    (exts : Option (List String)) (fs : FileSystem) :
    (check_report uuid dataset_folder exts fs).2 = fs := by
  unfold check_report
  cases hd : fs.getDir dataset_folder with
  | none => simp [hd]
  | some d =>
    cases hm : d.metaJson with
    | none => simp [hd, hm]
    | some md => simp [hd, hm]

/-- C5: `check_json_metadata` never mutates the filesystem: whether it passes
or raises, the filesystem — and in particular the stored `.metadata.json`
record of every directory — is returned unchanged.  The operation is composed
exclusively of reads (`read_json_metadata` and the digest computation), which
the embedding threads through the state without modification. -/
theorem check_json_metadata_preserves_fs (uuid dataset_folder : String)
    (exts : Option (List String)) (fs : FileSystem) :
    (check_json_metadata uuid dataset_folder exts fs).2 = fs ∧
    ∀ p : String,
      ((check_json_metadata uuid dataset_folder exts fs).2.getDir p).map
          Dir.metaJson = (fs.getDir p).map Dir.metaJson := by
  have hsnd : (check_json_metadata uuid dataset_folder exts fs).2 = fs := by
    unfold check_json_metadata
    cases hr : check_report uuid dataset_folder exts fs with
    | mk r fs1 =>
      have h : fs1 = fs := by
        have h2 := check_report_snd uuid dataset_folder exts fs
        rw [hr] at h2
        exact h2
      subst h
      cases r with
      | error e2 => rfl
      | ok rep =>
        by_cases hrep : rep ≠ []
        · simp [hrep]
        · simp [hrep]
  exact ⟨hsnd, fun p => by rw [hsnd]⟩

/-- C4: the verification verdict.  Given the report list the run computes,
`check_json_metadata` raises an exception carrying the full joined report iff
the report is nonempty, and returns normally iff the report is empty — a
non-empty report is never silently accepted. -/
theorem check_json_metadata_raises_iff (uuid dataset_folder : String)
    (exts : Option (List String)) (fs : FileSystem) (r : List String)
    (h : (check_report uuid dataset_folder exts fs).1 = .ok r) :
    ((check_json_metadata uuid dataset_folder exts fs).1 =
        .error (String.intercalate "\n" r) ↔ r ≠ []) ∧
    ((check_json_metadata uuid dataset_folder exts fs).1 = .ok () ↔ r = []) := by
  unfold check_json_metadata
  cases hr : check_report uuid dataset_folder exts fs with
  | mk rr fs1 =>
    have hrr : rr = Except.ok r := by
      have := h
      rw [hr] at this
      exact this
    subst hrr
    dsimp only
    by_cases hrep : r ≠ []
    · rw [if_pos hrep]
      exact ⟨⟨fun _ => hrep, fun _ => rfl⟩,
        ⟨fun hcontr => Except.noConfusion hcontr, fun hre => absurd hre hrep⟩⟩
    · push_neg at hrep
      rw [if_neg (by simp [hrep])]
      exact ⟨⟨fun hcontr => Except.noConfusion hcontr, fun hne => absurd hrep hne⟩,
        ⟨fun _ => hrep, fun _ => rfl⟩⟩

/-- A concrete dataset directory whose stored snapshot matches its content:
used as witness input. -/
def mdW : MetadataDict :=
  { uuid := "u", time := "t", folder_path := "/w",
    files := [{ file := "a.txt", md5 := md5OfContent "hello", mtime := "t1" }] }

def dirW : Dir :=
  { files := [("a.txt", ⟨"hello", "t1"⟩)], subdirs := [], metaJson := some mdW }

def fsW : FileSystem := { cwd := "/", dirs := [("/w", dirW)] }

/-- Witness for C4 at a concrete input: the stored snapshot of `fsW` matches
the current files, the computed report is empty, and verification passes. -/
theorem check_json_metadata_raises_iff_witness :
    ((check_json_metadata "u" "/w" none fsW).1 =
        .error (String.intercalate "\n" ([] : List String)) ↔
        ([] : List String) ≠ []) ∧
    ((check_json_metadata "u" "/w" none fsW).1 = .ok () ↔
        ([] : List String) = []) :=
  check_json_metadata_raises_iff "u" "/w" none fsW [] rfl

theorem write_json_metadata_eq (uuid dataset_folder : String)
    (exts : Option (List String)) (now : String) (fs : FileSystem) (d : Dir)
    (hd : fs.getDir dataset_folder = some d) :
    write_json_metadata uuid dataset_folder exts now fs =
      (.ok (), fs.setDir dataset_folder
        { d with metaJson := some (build_metadata_dict uuid
            (abspath fs.cwd dataset_folder) now d (pyOrExts exts)) }) := by
  unfold write_json_metadata
  rw [hd]

/-- The shape of the report computed by `check_json_metadata` when the
directory and its stored snapshot exist. -/
theorem check_report_ok (uuid dataset_folder : String)
    (exts : Option (List String)) (fs : FileSystem) (d : Dir)
    (md : MetadataDict) (hd : fs.getDir dataset_folder = some d)
    (hm : d.metaJson = some md) :
    (check_report uuid dataset_folder exts fs).1 = .ok
      (((if md.uuid ≠ uuid then [uuidChangedMsg md.uuid uuid] else []) ++
        (if md.folder_path ≠ dataset_folder then
          [folderChangedMsg md.folder_path dataset_folder] else [])) ++
        ((pyDict (md.files.map (fun fr => (fr.file, fr.md5)))).map
          (fun kv => classify_saved_file
            (get_filtered_md5sum_dict d (pyOrExts exts)) kv.1 kv.2)).flatten) := by
  unfold check_report
  rw [hd]
  dsimp only
  rw [hm]

theorem setDir_cwd (fs : FileSystem) (p : String) (d : Dir) :
    (fs.setDir p d).cwd = fs.cwd := rfl

/-- Structure update of `metaJson` does not change the glob-visible entries. -/
theorem get_filtered_update_metaJson (d : Dir) (x : Option MetadataDict)
    (exts : List String) :
    get_filtered_md5sum_dict { d with metaJson := x } exts =
      get_filtered_md5sum_dict d exts := rfl

theorem abspath_ne_of_relative (cwd p : String) (h : isAbsolute p = false) :
    abspath cwd p ≠ p := by
  unfold abspath
  rw [if_neg (by simp [h])]
  intro he
  have hlen := congrArg (fun s : String => s.data.length) he
  simp only [String.data_append, List.length_append] at hlen
  have h1 : (('/' :: []) : List Char).length = 1 := rfl
  omega

theorem abspath_of_absolute (cwd p : String) (h : isAbsolute p = true) :
    abspath cwd p = p := by
  unfold abspath
  rw [if_pos h]

/-- Every value of the filtered digest dict is the digest of some content. -/
theorem get_filtered_values (d : Dir) (exts : List String) :
    ∀ q ∈ get_filtered_md5sum_dict d exts, ∃ c, q.2 = md5OfContent c := by
  intro q hq
  rw [get_filtered_md5sum_dict_eq] at hq
  have hv := pyDict_values_sub _ q hq
  simp only [List.map_map, List.mem_map, Function.comp] at hv
  obtain ⟨p, _, hpe⟩ := hv
  exact ⟨p.2.content, hpe.symm⟩

theorem get_filtered_keys_nodup (d : Dir) (exts : List String) :
    ((get_filtered_md5sum_dict d exts).map (·.1)).Nodup := by
  unfold get_filtered_md5sum_dict
  exact pyDict_keys_nodup _

theorem build_files_map_fst (uuid folderAbs now : String) (d : Dir)
    (exts : List String) :
    ((build_metadata_dict uuid folderAbs now d exts).files.map
        (fun fr => (fr.file, fr.md5))).map (·.1) =
      List.insertionSort (· ≤ ·) ((get_filtered_md5sum_dict d exts).map (·.1)) := by
  unfold build_metadata_dict
  dsimp only
  rw [List.map_map, List.map_map]
  exact List.map_id _

/-- When a stored file's digest is found unchanged in the calculated dict, the
per-file classification is empty (digests are nonempty, so the lookup result
is truthy). -/
theorem classify_self (m : List (String × String)) (n v : String)
    (hlook : m.lookup n = some v) (hv : v ≠ "") :
    classify_saved_file m n v = [] := by
  unfold classify_saved_file
  rw [hlook]
  simp [pyFalsyOptStr, hv]

/-- Every record written by `build_metadata_dict` classifies as clean against
the digest dict it was built from. -/
theorem build_files_verify (uuid folderAbs now : String) (d : Dir)
    (exts : List String) :
    ∀ kv ∈ pyDict ((build_metadata_dict uuid folderAbs now d exts).files.map
        (fun fr => (fr.file, fr.md5))),
      classify_saved_file (get_filtered_md5sum_dict d exts) kv.1 kv.2 = [] := by
  intro kv hkv
  have hmnodup := get_filtered_keys_nodup d exts
  have hkeys := build_files_map_fst uuid folderAbs now d exts
  have hlnodup : (((build_metadata_dict uuid folderAbs now d exts).files.map
      (fun fr => (fr.file, fr.md5))).map (·.1)).Nodup := by
    rw [hkeys]
    exact ((List.perm_insertionSort _ _).nodup_iff).mpr hmnodup
  rw [pyDict_eq_self _ hlnodup] at hkv
  unfold build_metadata_dict at hkv
  dsimp only at hkv
  rw [List.map_map] at hkv
  simp only [List.mem_map, Function.comp] at hkv
  obtain ⟨n, hn, hkveq⟩ := hkv
  rw [List.mem_insertionSort] at hn
  obtain ⟨q, hq, hqn⟩ := List.mem_map.mp hn
  have hlook : (get_filtered_md5sum_dict d exts).lookup n = some q.2 := by
    rw [← hqn]
    exact lookup_of_mem_nodup hmnodup hq
  obtain ⟨c, hc⟩ := get_filtered_values d exts q hq
  subst hkveq
  dsimp only
  rw [hlook]
  exact classify_self _ n q.2 hlook (by rw [hc]; exact md5OfContent_ne_empty c)

/-- C3 (amended): capture followed by immediate verify with the same
arguments on an unmodified file set yields an empty report and passes —
provided the dataset-folder argument is an absolute, already-normalized path
(so that the stored `folder_path`, which capture records via
`os.path.abspath`, equals the string verify later compares verbatim). -/
theorem capture_then_verify_absolute_ok (uuid dataset_folder : String)
    (exts : Option (List String)) (now : String) (fs : FileSystem) (d : Dir)
    (habs : isAbsolute dataset_folder = true)
    (hd : fs.getDir dataset_folder = some d) :
    (check_report uuid dataset_folder exts
        (write_json_metadata uuid dataset_folder exts now fs).2).1 = .ok [] ∧
    (check_json_metadata uuid dataset_folder exts
        (write_json_metadata uuid dataset_folder exts now fs).2).1 = .ok () := by
  have hw := write_json_metadata_eq uuid dataset_folder exts now fs d hd
  have hfs2 : (write_json_metadata uuid dataset_folder exts now fs).2 =
      fs.setDir dataset_folder
        { d with metaJson := some (build_metadata_dict uuid
            (abspath fs.cwd dataset_folder) now d (pyOrExts exts)) } := by
    rw [hw]
  have hget := getDir_setDir fs dataset_folder
    { d with metaJson := some (build_metadata_dict uuid
        (abspath fs.cwd dataset_folder) now d (pyOrExts exts)) }
    (by rw [hd]; rfl)
  have hrep := check_report_ok uuid dataset_folder exts _ _
    (build_metadata_dict uuid (abspath fs.cwd dataset_folder) now d
      (pyOrExts exts)) hget rfl
  have hu : (build_metadata_dict uuid (abspath fs.cwd dataset_folder) now d
      (pyOrExts exts)).uuid = uuid := rfl
  have hfolder : (build_metadata_dict uuid (abspath fs.cwd dataset_folder) now d
      (pyOrExts exts)).folder_path = dataset_folder := by
    show abspath fs.cwd dataset_folder = dataset_folder
    exact abspath_of_absolute fs.cwd dataset_folder habs
  have hflat : (((pyDict ((build_metadata_dict uuid
      (abspath fs.cwd dataset_folder) now d (pyOrExts exts)).files.map
        (fun fr => (fr.file, fr.md5)))).map
      (fun kv => classify_saved_file
        (get_filtered_md5sum_dict
          { d with metaJson := some (build_metadata_dict uuid
              (abspath fs.cwd dataset_folder) now d (pyOrExts exts)) }
          (pyOrExts exts)) kv.1 kv.2)).flatten) = [] := by
    rw [get_filtered_update_metaJson]
    rw [List.flatten_eq_nil_iff]
    intro l hl
    obtain ⟨kv, hkv, hleq⟩ := List.mem_map.mp hl
    rw [← hleq]
    exact build_files_verify uuid (abspath fs.cwd dataset_folder) now d
      (pyOrExts exts) kv hkv
  have hreport : (check_report uuid dataset_folder exts
      (write_json_metadata uuid dataset_folder exts now fs).2).1 = .ok [] := by
    rw [hfs2, hrep]
    rw [if_neg (by simp [hu]), if_neg (by simp [hfolder]), hflat]
    simp
  refine ⟨hreport, ?_⟩
  exact (check_json_metadata_raises_iff uuid dataset_folder exts _ [] hreport).2.mpr
    rfl

/-- A dataset directory (no stored snapshot yet) for counterexample and
witness runs. -/
def dirV : Dir :=
  { files := [("f.dat", ⟨"payload", "t1"⟩)], subdirs := [], metaJson := none }

/-- Filesystem whose working directory is `/base` and which holds the dataset
at absolute path `/base/data`, reachable by the relative path `data`. -/
def fsV : FileSystem := { cwd := "/base", dirs := [("/base/data", dirV)] }

/-- C3 counterexample: capture followed by immediate verify *with the same
arguments* on an unmodified file set, but with the dataset folder given as the
relative path `data`.  Capture succeeds and stores the absolute
`folder_path = /base/data`; verify then compares that stored string verbatim
against the relative argument, reports a location mismatch, and raises — the
report is not empty and the run does not succeed, refuting the claim as
universally stated. -/
theorem capture_verify_relative_path_counterexample :
    (write_json_metadata "u" "data" none "now" fsV).1 = .ok () ∧
    (check_report "u" "data" none
        (write_json_metadata "u" "data" none "now" fsV).2).1 =
      .ok ["Dataset folder Changed from /base/data to data"] ∧
    (check_json_metadata "u" "data" none
        (write_json_metadata "u" "data" none "now" fsV).2).1 =
      .error "Dataset folder Changed from /base/data to data" := by
  refine ⟨rfl, rfl, rfl⟩

/-- Witness for the amended C3 at a concrete absolute path. -/
theorem capture_then_verify_absolute_ok_witness :
    (check_report "u" "/base/data" none
        (write_json_metadata "u" "/base/data" none "now" fsV).2).1 = .ok [] ∧
    (check_json_metadata "u" "/base/data" none
        (write_json_metadata "u" "/base/data" none "now" fsV).2).1 = .ok () :=
  capture_then_verify_absolute_ok "u" "/base/data" none "now" fsV dirV rfl rfl

theorem folderMsg_ne_uuidMsg (a b c e : String) :
    folderChangedMsg a b ≠ uuidChangedMsg c e := by
  intro h
  have h1 := folderChangedMsg_head a b
  have h2 := uuidChangedMsg_head c e
  rw [h] at h1
  rw [h1] at h2
  simp at h2

theorem folderMsg_not_in_flatten (cm : List (String × String))
    (saved : List (String × String)) (a b : String) :
    folderChangedMsg a b ∉
      (saved.map (fun kv => classify_saved_file cm kv.1 kv.2)).flatten := by
  intro hmem
  rw [List.mem_flatten] at hmem
  obtain ⟨l, hl, hx⟩ := hmem
  obtain ⟨kv, _, hleq⟩ := List.mem_map.mp hl
  rw [← hleq] at hx
  rcases classify_saved_file_head cm kv.1 kv.2 _ hx with h | h <;>
    · rw [folderChangedMsg_head] at h
      simp at h

/-- The location-mismatch line appears in the drift report exactly when the
stored `folder_path` differs (as a string) from the caller-supplied folder
argument. -/
theorem check_report_folder_msg_iff (uuid dataset_folder : String)
    (exts : Option (List String)) (fs : FileSystem) (d : Dir)
    (md : MetadataDict) (r : List String)
    (hd : fs.getDir dataset_folder = some d) (hm : d.metaJson = some md)
    (hr : (check_report uuid dataset_folder exts fs).1 = .ok r) :
    (folderChangedMsg md.folder_path dataset_folder ∈ r ↔
      md.folder_path ≠ dataset_folder) := by
  have hshape := check_report_ok uuid dataset_folder exts fs d md hd hm
  rw [hr] at hshape
  injection hshape with hrS
  subst hrS
  constructor
  · intro hmem
    by_contra hne
    rw [if_neg (not_not_intro hne)] at hmem
    simp only [List.append_nil, List.mem_append] at hmem
    rcases hmem with hmem | hmem
    · split at hmem
      · rw [List.mem_singleton] at hmem
        exact folderMsg_ne_uuidMsg _ _ _ _ hmem
      · simp at hmem
    · exact folderMsg_not_in_flatten _ _ _ _ hmem
  · intro hne
    rw [if_pos hne]
    simp [List.mem_append]

/-- C10: verify compares the caller-supplied folder string verbatim against
the stored `folder_path`: the location-mismatch line is reported exactly when
the two strings differ — and therefore verifying with a relative path naming
the very directory capture just recorded (capture stores the absolute path)
always yields a location-mismatch discrepancy. -/
theorem check_folder_path_verbatim :
    (∀ (uuid dataset_folder : String) (exts : Option (List String))
        (fs : FileSystem) (d : Dir) (md : MetadataDict) (r : List String),
        fs.getDir dataset_folder = some d → d.metaJson = some md →
        (check_report uuid dataset_folder exts fs).1 = .ok r →
        (folderChangedMsg md.folder_path dataset_folder ∈ r ↔
          md.folder_path ≠ dataset_folder)) ∧
    (∀ (uuid dataset_folder : String) (exts : Option (List String))
        (now : String) (fs : FileSystem) (d : Dir) (r : List String),
        isAbsolute dataset_folder = false →
        fs.getDir dataset_folder = some d →
        (check_report uuid dataset_folder exts
            (write_json_metadata uuid dataset_folder exts now fs).2).1 = .ok r →
        folderChangedMsg (abspath fs.cwd dataset_folder) dataset_folder ∈ r) := by
  constructor
  · intro uuid dataset_folder exts fs d md r hd hm hr
    exact check_report_folder_msg_iff uuid dataset_folder exts fs d md r hd hm hr
  · intro uuid dataset_folder exts now fs d r hrel hd hr
    have hw := write_json_metadata_eq uuid dataset_folder exts now fs d hd
    have hget := getDir_setDir fs dataset_folder
      { d with metaJson := some (build_metadata_dict uuid
          (abspath fs.cwd dataset_folder) now d (pyOrExts exts)) }
      (by rw [hd]; rfl)
    have hr2 : (check_report uuid dataset_folder exts
        (fs.setDir dataset_folder
          { d with metaJson := some (build_metadata_dict uuid
              (abspath fs.cwd dataset_folder) now d (pyOrExts exts)) })).1 =
        .ok r := by
      rw [← show (write_json_metadata uuid dataset_folder exts now fs).2 =
          fs.setDir dataset_folder
            { d with metaJson := some (build_metadata_dict uuid
                (abspath fs.cwd dataset_folder) now d (pyOrExts exts)) } from
          by rw [hw]]
      exact hr
    have hiff := check_report_folder_msg_iff uuid dataset_folder exts _ _
      (build_metadata_dict uuid (abspath fs.cwd dataset_folder) now d
        (pyOrExts exts)) r hget rfl hr2
    have hfp : (build_metadata_dict uuid (abspath fs.cwd dataset_folder) now d
        (pyOrExts exts)).folder_path = abspath fs.cwd dataset_folder := rfl
    rw [hfp] at hiff
    exact hiff.mpr (abspath_ne_of_relative fs.cwd dataset_folder hrel)

/-- Witness for C10 at a concrete input: after capturing `fsV` through the
relative path `data`, the verify report contains the location-mismatch line
for `/base/data` vs `data`, and the mismatch line is reported exactly when
the strings differ. -/
theorem check_folder_path_verbatim_witness :
    folderChangedMsg (abspath fsV.cwd "data") "data" ∈
      ["Dataset folder Changed from /base/data to data"] :=
  check_folder_path_verbatim.2 "u" "data" none "now" fsV dirV
    ["Dataset folder Changed from /base/data to data"] rfl rfl rfl

theorem map_fst_filter_key {β : Type} (q : String → Bool)
    (l : List (String × β)) :
    (l.filter (fun nf => q nf.1)).map (·.1) = (l.map (·.1)).filter q := by
  induction l with
  | nil => rfl
  | cons p t ih =>
    by_cases hq : q p.1
    · simp [List.filter_cons, hq, ih]
    · simp [List.filter_cons, hq, ih]

theorem lookup_map_value {β γ : Type} (g : β → γ) (l : List (String × β))
    (k : String) :
    (l.map (fun nf => (nf.1, g nf.2))).lookup k = (l.lookup k).map g := by
  induction l with
  | nil => rfl
  | cons p t ih =>
    obtain ⟨a, b⟩ := p
    cases hka : k == a with
    | true => simp [List.lookup_cons, hka]
    | false => simp [List.lookup_cons, hka, ih]

theorem build_files_names (uuid folderAbs now : String) (d : Dir)
    (exts : List String) :
    (build_metadata_dict uuid folderAbs now d exts).files.map (·.file) =
      List.insertionSort (· ≤ ·)
        ((get_filtered_md5sum_dict d exts).map (·.1)) := by
  unfold build_metadata_dict
  dsimp only
  rw [List.map_map]
  exact List.map_id _

/-- On a directory with distinct file names (as real directories have), the
filtered digest dict is literally the filtered file list with digests. -/
theorem get_filtered_md5sum_dict_nodup_eq (d : Dir) (exts : List String)
    (hnd : (d.files.map (·.1)).Nodup) :
    get_filtered_md5sum_dict d exts =
      ((d.files.filter (fun nf => nf.1.data.head? ≠ some '.')).filter
        (fun nf => ¬ exts.contains (splitextExt nf.1))).map
        (fun nf => (nf.1, md5OfContent nf.2.content)) := by
  rw [get_filtered_md5sum_dict_eq]
  apply pyDict_eq_self
  have hsub : List.Sublist
      ((d.files.filter (fun nf => nf.1.data.head? ≠ some '.')).filter
        (fun nf => ¬ exts.contains (splitextExt nf.1))) d.files :=
    (List.filter_sublist _).trans (List.filter_sublist _)
  have hFnodup : (((d.files.filter (fun nf => nf.1.data.head? ≠ some '.')).filter
      (fun nf => ¬ exts.contains (splitextExt nf.1))).map (·.1)).Nodup :=
    List.Nodup.sublist (hsub.map (·.1)) hnd
  rw [List.map_map]
  exact hFnodup

theorem F_names (d : Dir) (exts : List String) :
    ((d.files.filter (fun nf => nf.1.data.head? ≠ some '.')).filter
      (fun nf => ¬ exts.contains (splitextExt nf.1))).map (·.1) =
    ((d.files.map (·.1)).filter (fun n => n.data.head? ≠ some '.')).filter
      (fun n => ¬ exts.contains (splitextExt n)) := by
  rw [map_fst_filter_key (fun n => ¬ exts.contains (splitextExt n)),
      map_fst_filter_key (fun n => n.data.head? ≠ some '.')]

/-- C6 (amended): the snapshot written by capture lists exactly the
*non-hidden* regular files directly under the dataset folder whose extension
is not in the (defaulted) exclusion list — `glob('*')` never matches names
starting with a dot, so hidden files are omitted as well — sorted by file
name, each with the digest of its content and its modification time. -/
theorem write_json_metadata_entries_spec (uuid dataset_folder : String)
    (exts : Option (List String)) (now : String) (fs : FileSystem) (d : Dir)
    (hd : fs.getDir dataset_folder = some d)
    (hnd : (d.files.map (·.1)).Nodup) :
    (write_json_metadata uuid dataset_folder exts now fs).1 = .ok () ∧
    ((write_json_metadata uuid dataset_folder exts now fs).2.getDir
        dataset_folder).bind Dir.metaJson =
      some (build_metadata_dict uuid (abspath fs.cwd dataset_folder) now d
        (pyOrExts exts)) ∧
    (build_metadata_dict uuid (abspath fs.cwd dataset_folder) now d
        (pyOrExts exts)).files.map (·.file) =
      List.insertionSort (· ≤ ·)
        (((d.files.map (·.1)).filter (fun n => n.data.head? ≠ some '.')).filter
          (fun n => ¬ (pyOrExts exts).contains (splitextExt n))) ∧
    List.Sorted (· ≤ ·) ((build_metadata_dict uuid
      (abspath fs.cwd dataset_folder) now d (pyOrExts exts)).files.map
        (·.file)) ∧
    ((build_metadata_dict uuid (abspath fs.cwd dataset_folder) now d
        (pyOrExts exts)).files.map (·.file)).Perm
      (((d.files.map (·.1)).filter (fun n => n.data.head? ≠ some '.')).filter
        (fun n => ¬ (pyOrExts exts).contains (splitextExt n))) ∧
    (∀ fr ∈ (build_metadata_dict uuid (abspath fs.cwd dataset_folder) now d
        (pyOrExts exts)).files, ∃ fi : FileInfo, (fr.file, fi) ∈ d.files ∧
      fr.md5 = md5OfContent fi.content ∧ fr.mtime = fi.mtime) ∧
    pyOrExts none = [".bck", ".md5", ".uuid", ".json", ".tmp"] := by
  have hw := write_json_metadata_eq uuid dataset_folder exts now fs d hd
  have hkeysnames : (get_filtered_md5sum_dict d (pyOrExts exts)).map (·.1) =
      ((d.files.map (·.1)).filter (fun n => n.data.head? ≠ some '.')).filter
        (fun n => ¬ (pyOrExts exts).contains (splitextExt n)) := by
    rw [get_filtered_md5sum_dict_nodup_eq d _ hnd, List.map_map]
    exact F_names d (pyOrExts exts)
  refine ⟨by rw [hw], ?_, ?_, ?_, ?_, ?_, rfl⟩
  · rw [hw]
    dsimp only
    rw [getDir_setDir fs dataset_folder _ (by rw [hd]; rfl)]
    rfl
  · rw [build_files_names, hkeysnames]
  · rw [build_files_names]
    exact List.sorted_insertionSort _ _
  · rw [build_files_names, hkeysnames]
    exact List.perm_insertionSort _ _
  · intro fr hfr
    unfold build_metadata_dict at hfr
    dsimp only at hfr
    obtain ⟨n, hn, hfr_eq⟩ := List.mem_map.mp hfr
    rw [List.mem_insertionSort] at hn
    rw [get_filtered_md5sum_dict_nodup_eq d _ hnd, List.map_map] at hn
    obtain ⟨nf, hnf, hnfn⟩ := List.mem_map.mp hn
    have hnfn1 : nf.1 = n := hnfn
    have hnfd : nf ∈ d.files :=
      List.mem_of_mem_filter (List.mem_of_mem_filter hnf)
    have hFnodup : (((d.files.filter
        (fun nf => nf.1.data.head? ≠ some '.')).filter
        (fun nf => ¬ (pyOrExts exts).contains (splitextExt nf.1))).map
          (·.1)).Nodup := by
      have hsub : List.Sublist
          ((d.files.filter (fun nf => nf.1.data.head? ≠ some '.')).filter
            (fun nf => ¬ (pyOrExts exts).contains (splitextExt nf.1)))
          d.files :=
        (List.filter_sublist _).trans (List.filter_sublist _)
      exact List.Nodup.sublist (hsub.map (·.1)) hnd
    refine ⟨nf.2, ?_, ?_, ?_⟩
    · rw [← hfr_eq]
      dsimp only
      rw [← hnfn1]
      exact hnfd
    · rw [← hfr_eq]
      dsimp only
      have hlk : (get_filtered_md5sum_dict d (pyOrExts exts)).lookup n =
          some (md5OfContent nf.2.content) := by
        rw [get_filtered_md5sum_dict_nodup_eq d _ hnd,
          lookup_map_value (fun fi : FileInfo => md5OfContent fi.content),
          ← hnfn1, lookup_of_mem_nodup hFnodup hnf]
        rfl
      rw [hlk]
      rfl
    · rw [← hfr_eq]
      dsimp only
      have hlkt : d.files.lookup n = some nf.2 := by
        rw [← hnfn1]
        exact lookup_of_mem_nodup hnd hnfd
      rw [hlkt]
      rfl

/-- Directory holding a hidden file (whose extension is not excluded) and a
plain file: counterexample input for C6. -/
def dirH : Dir :=
  { files := [(".hidden", ⟨"h", "t0"⟩), ("a.txt", ⟨"x", "t1"⟩)],
    subdirs := [], metaJson := none }

def fsH : FileSystem := { cwd := "/", dirs := [("/d", dirH)] }

/-- C6 counterexample: `.hidden` is a regular file directly under the dataset
folder and its extension (the empty string — `splitext` yields no extension
for a leading-dot name) is not in the default exclusion list, yet the
captured snapshot lists only `a.txt`: the glob pattern `'*'` skips dot-files,
so the claim's description of the entry set is refuted. -/
theorem write_json_metadata_hidden_file_counterexample :
    ((((write_json_metadata "u" "/d" none "now" fsH).2.getDir "/d").bind
        Dir.metaJson).map (fun md => md.files.map (·.file))) =
      some ["a.txt"] ∧
    (".hidden", (⟨"h", "t0"⟩ : FileInfo)) ∈ dirH.files ∧
    DEFAULT_EXCLUDED_EXTENSIONS.contains (splitextExt ".hidden") = false :=
  ⟨rfl, List.mem_cons_self _ _, rfl⟩

/-- Witness for the amended C6 at a concrete input: the captured entry list
of `fsH` is exactly the sorted, hidden-and-extension filtered file names. -/
theorem write_json_metadata_entries_spec_witness :
    ((write_json_metadata "u" "/d" none "now" fsH).2.getDir "/d").bind
        Dir.metaJson =
      some (build_metadata_dict "u" (abspath fsH.cwd "/d") "now" dirH
        (pyOrExts none)) ∧
    (build_metadata_dict "u" (abspath fsH.cwd "/d") "now" dirH
        (pyOrExts none)).files.map (·.file) =
      List.insertionSort (· ≤ ·)
        (((dirH.files.map (·.1)).filter
          (fun n => n.data.head? ≠ some '.')).filter
          (fun n => ¬ (pyOrExts none).contains (splitextExt n))) :=
  ⟨(write_json_metadata_entries_spec "u" "/d" none "now" fsH dirH rfl
      (by simp [dirH])).2.1,
    (write_json_metadata_entries_spec "u" "/d" none "now" fsH dirH rfl
      (by simp [dirH])).2.2.1⟩

/-- C1 (amended): for a stored entry whose file name has no current digest,
the drift detector reports a rename to the *first* current file (in dict
order) sharing the stored digest whenever at least one such file exists —
even when several share it — and reports the entry as missing only when no
current file shares the digest; every such classification is part of the
final report. -/
theorem check_rename_first_match :
    (∀ (cm : List (String × String)) (f dg : String),
        cm.lookup f = none →
        classify_saved_file cm f dg =
          if ((cm.filter (fun kv => kv.2 = dg)).map (·.1)) = []
          then [missingMsg f]
          else [renamedMsg f
            (((cm.filter (fun kv => kv.2 = dg)).map (·.1)).headD "")]) ∧
    (∀ (uuid dataset_folder : String) (exts : Option (List String))
        (fs : FileSystem) (d : Dir) (md : MetadataDict) (r : List String),
        fs.getDir dataset_folder = some d → d.metaJson = some md →
        (check_report uuid dataset_folder exts fs).1 = .ok r →
        ∃ pre, r = pre ++
          ((pyDict (md.files.map (fun fr => (fr.file, fr.md5)))).map
            (fun kv => classify_saved_file
              (get_filtered_md5sum_dict d (pyOrExts exts)) kv.1 kv.2)).flatten) := by
  constructor
  · intro cm f dg hl
    simp only [classify_saved_file]
    rw [hl]
    by_cases hm : ((cm.filter (fun kv => kv.2 = dg)).map (·.1)) = []
    · simp [pyFalsyOptStr, hm]
    · simp [pyFalsyOptStr, hm]
  · intro uuid dataset_folder exts fs d md r hd hm hr
    have hshape := check_report_ok uuid dataset_folder exts fs d md hd hm
    rw [hr] at hshape
    injection hshape with hrS
    exact ⟨_, hrS⟩

/-- Stored snapshot holding one file `a.dat`; the current directory instead
holds `b.dat` and `c.dat`, both byte-identical to the stored content. -/
def mdR : MetadataDict :=
  { uuid := "u", time := "t0", folder_path := "/data",
    files := [{ file := "a.dat", md5 := md5OfContent "x", mtime := "t" }] }

def dirR : Dir :=
  { files := [("b.dat", ⟨"x", "t1"⟩), ("c.dat", ⟨"x", "t2"⟩)],
    subdirs := [], metaJson := some mdR }

def fsR : FileSystem := { cwd := "/", dirs := [("/data", dirR)] }

/-- C1 counterexample: the stored file `a.dat` is gone and *two* current
files (`b.dat`, `c.dat`) share its stored digest, yet the report guesses the
rename to the first match (`b.dat`) instead of reporting the entry as
missing — refuting "whenever more than one current file shares that digest,
the entry is reported as Missing, never as a guessed rename". -/
theorem check_ambiguous_rename_counterexample :
    (check_report "u" "/data" none fsR).1 =
      .ok ["File a.dat has been renamed to b.dat"] ∧
    ((get_filtered_md5sum_dict dirR DEFAULT_EXCLUDED_EXTENSIONS).filter
      (fun kv => kv.2 = md5OfContent "x")).length = 2 ∧
    "File a.dat does not exist" ∉ ["File a.dat has been renamed to b.dat"] :=
  ⟨rfl, rfl, by decide⟩

/-- Witness for the amended C1 at a concrete input with two digest matches:
the classification is the rename to the first match. -/
theorem check_rename_first_match_witness :
    classify_saved_file
        [("b.dat", md5OfContent "x"), ("c.dat", md5OfContent "x")] "a.dat"
        (md5OfContent "x") =
      (if ((([("b.dat", md5OfContent "x"), ("c.dat", md5OfContent "x")].filter
            (fun kv => kv.2 = md5OfContent "x")).map (·.1)) = [])
        then [missingMsg "a.dat"]
        else [renamedMsg "a.dat"
          ((([("b.dat", md5OfContent "x"),
              ("c.dat", md5OfContent "x")].filter
            (fun kv => kv.2 = md5OfContent "x")).map (·.1)).headD "")]) :=
  check_rename_first_match.1
    [("b.dat", md5OfContent "x"), ("c.dat", md5OfContent "x")] "a.dat"
    (md5OfContent "x") rfl

/-! ## Embedding of geophysics_survey_metadata_record_creator.py

The record creator's identity-resolution functions are embedded over the
outcomes of their collaborator calls (netCDF attribute reads, sidecar reads,
`uuid.uuid4()`, the DOI minter): each function of the source becomes a Lean
function of those outcomes, returning both its Python return value and the
sequence of attribute-store writes it performs. -/

theorem prefix_append_ne_empty (p s : String) (hp : p.data ≠ []) :
    p ++ s ≠ "" := by
  intro h
  have h2 := congrArg String.data h
  rw [String.data_append] at h2
  have h3 : p.data ++ s.data = [] := h2
  exact hp (List.append_eq_nil.mp h3).1

/-- Inputs of the inner function `get_uuid` of `populate_template_values`:
the value of `['NetCDF', 'uuid']` in the merged metadata tree (the dataset's
own attribute store), the outcome of
`read_json_metadata(os.path.dirname(netcdf_path)).get('uuid')` (`.error ()`
when the read raised and the exception was caught, otherwise the optional
value of the `uuid` key of the sidecar), and the fresh `str(uuid.uuid4())`. -/
structure UuidEnv where
  netcdf_uuid : Option String
  json_uuid : Except Unit (Option String)
  fresh_uuid : String

/-- Result of `get_uuid`: the returned identifier and the values assigned to
`netcdf_dataset.uuid` (each assignment is followed by `sync()`), in order. -/
structure UuidResult where
  returned : String
  written : List String
deriving DecidableEq

/-- `get_uuid` (geophysics_survey_metadata_record_creator.py, lines
101-122): return the attribute-store identifier if truthy; otherwise try the
sidecar (a failed read leaves the variable unchanged), fall back to a fresh
identifier when still falsy, and write the chosen identifier back to the
attribute store (followed by `sync()`). -/
def get_uuid (env : UuidEnv) : UuidResult :=
  let dataset_uuid := env.netcdf_uuid
  if pyTruthy dataset_uuid then
    { returned := dataset_uuid.getD "", written := [] }
  else
    let dataset_uuid :=
      match env.json_uuid with
      | .ok v => v
      | .error _ => dataset_uuid
    let dataset_uuid :=
      if ¬ pyTruthy dataset_uuid then some env.fresh_uuid else dataset_uuid
    { returned := dataset_uuid.getD "", written := [dataset_uuid.getD ""] }

/-- C7: dataset-identifier resolution follows the preference order attribute
store → sidecar cache → freshly generated; when the chosen identifier did not
come from the attribute store it is written back exactly once, and an
identifier already present in the attribute store triggers no write-back. -/
theorem get_uuid_preference_order (env : UuidEnv) :
    (pyTruthy env.netcdf_uuid = true →
      get_uuid env =
        { returned := env.netcdf_uuid.getD "", written := [] }) ∧
    (pyTruthy env.netcdf_uuid = false →
      (get_uuid env).returned =
        (match env.json_uuid with
          | .ok v => if pyTruthy v then v.getD "" else env.fresh_uuid
          | .error _ => env.fresh_uuid) ∧
      (get_uuid env).written = [(get_uuid env).returned]) := by
  constructor
  · intro h
    unfold get_uuid
    rw [if_pos h]
  · intro h
    unfold get_uuid
    rw [if_neg (by simp [h])]
    cases hj : env.json_uuid with
    | ok v =>
      by_cases hv : pyTruthy v = true
      · simp [hv]
      · simp only [Bool.not_eq_true] at hv
        simp [hv]
    | error e =>
      have hnt : pyTruthy env.netcdf_uuid = false := h
      simp [hnt]

/-- Sidecar-only identifier environment: attribute store empty, sidecar
supplies `abc-123`. -/
def envU : UuidEnv :=
  { netcdf_uuid := none, json_uuid := Except.ok (some "abc-123"),
    fresh_uuid := "f-1" }

/-- Witness for C7: attribute store empty, sidecar supplies `abc-123`; the
resolved identifier is `abc-123` and it is written back exactly once. -/
theorem get_uuid_preference_order_witness :
    (get_uuid envU).returned =
      (match envU.json_uuid with
        | .ok v => if pyTruthy v then v.getD "" else envU.fresh_uuid
        | .error _ => envU.fresh_uuid) ∧
    (get_uuid envU).written = [(get_uuid envU).returned] :=
  (get_uuid_preference_order envU).2 rfl

/-- Base-class `MetadataRecordCreator.get_doi`: on minting success the DOI
URL `'http://dx.doi.org/' + str(new_doi)` is returned; on failure (or an
exception, which is caught and logged) the result is `None`. -/
def base_get_doi (doi_success : Bool) (new_doi : String) : Option String :=
  if doi_success then some ("http://dx.doi.org/" ++ new_doi) else none

structure DoiResult where
  returned : Option String
  written : List String
deriving DecidableEq

/-- Inner `get_doi` of `populate_template_values` (lines 124-136): mint via
the base-class helper, then persist `netcdf_dataset.doi` (with `sync()`) only
when a DOI was returned *and* the minting mode is `'prod'`. -/
def get_doi (doi_success : Bool) (new_doi : String)
    (doi_minting_mode : String) : DoiResult :=
  let dataset_doi := base_get_doi doi_success new_doi
  if pyTruthy dataset_doi ∧ doi_minting_mode = "prod" then
    { returned := dataset_doi, written := [dataset_doi.getD ""] }
  else
    { returned := dataset_doi, written := [] }

/-- C8: a successfully minted DOI is persisted to the attribute store exactly
once when the minting mode is `'prod'`, and never persisted in any other
mode. -/
theorem get_doi_persist_iff_prod (new_doi mode : String) :
    (get_doi true new_doi mode).returned =
      some ("http://dx.doi.org/" ++ new_doi) ∧
    (mode = "prod" →
      (get_doi true new_doi mode).written =
        ["http://dx.doi.org/" ++ new_doi]) ∧
    (mode ≠ "prod" → (get_doi true new_doi mode).written = []) := by
  have htruthy : pyTruthy (base_get_doi true new_doi) = true := by
    unfold base_get_doi pyTruthy pyFalsyOptStr
    simp only [if_pos trivial]
    simp [prefix_append_ne_empty "http://dx.doi.org/" new_doi (by decide)]
  refine ⟨?_, ?_, ?_⟩
  · unfold get_doi
    dsimp only
    split <;> rfl
  · intro hm
    unfold get_doi
    dsimp only
    rw [if_pos ⟨htruthy, hm⟩]
    rfl
  · intro hm
    unfold get_doi
    dsimp only
    rw [if_neg (by intro hc; exact hm hc.2)]

/-- Witness for C8: a DOI minted in `'prod'` mode is written back once; the
same DOI minted in `'test'` mode is not written back. -/
theorem get_doi_persist_iff_prod_witness :
    (get_doi true "10.1/ab" "prod").written = ["http://dx.doi.org/10.1/ab"] ∧
    (get_doi true "10.1/ab" "test").written = [] :=
  ⟨(get_doi_persist_iff_prod "10.1/ab" "prod").2.1 rfl,
   (get_doi_persist_iff_prod "10.1/ab" "test").2.2 (by decide)⟩

/-- Python whitespace characters recognized by `str.strip()`. -/
def isPySpace (c : Char) : Bool :=
  c = ' ' || c = '\t' || c = '\n' || c = '\r' || c = '\x0B' || c = '\x0C'

/-- `s.strip()`: drop leading and trailing whitespace. -/
def pyStrip (s : String) : String :=
  String.mk (((s.data.dropWhile isPySpace).reverse.dropWhile isPySpace).reverse)

def pySplitCommaAux : List Char → List Char → List String
  | [], cur => [String.mk cur.reverse]
  | ',' :: rest, cur => String.mk cur.reverse :: pySplitCommaAux rest []
  | c :: rest, cur => pySplitCommaAux rest (c :: cur)

/-- `s.split(',')`: split on every comma, keeping empty segments. -/
def pySplitComma (s : String) : List String := pySplitCommaAux s.data []

/-- The value of a nonempty digit string. -/
def digitsVal : List Char → Except Unit Nat
  | [] => .error ()
  | l =>
    if l.all Char.isDigit then
      .ok (l.foldl (fun a c => a * 10 + (c.toNat - 48)) 0)
    else .error ()

/-- `int(s)` on an already-stripped string: an optional sign followed by one
or more digits; anything else raises `ValueError` (Python's underscore digit
grouping is not modelled). -/
def pyInt (s : String) : Except Unit Int :=
  match s.data with
  | '+' :: ds => (digitsVal ds).map Int.ofNat
  | '-' :: ds => (digitsVal ds).map (fun n => -(n : Int))
  | ds => (digitsVal ds).map Int.ofNat

/-- `[int(value_string.strip()) for value_string in s.split(',')
if value_string.strip()]` — any unparsable segment raises `ValueError` for
the whole comprehension. -/
def parseSurveyIdList (s : String) : Except Unit (List Int) :=
  (((pySplitComma s).map pyStrip).filter (fun v => v ≠ "")).mapM pyInt

/-- Python `set(a) == set(b)` for integer lists. -/
def intSetEq (a b : List Int) : Bool :=
  a.all (fun x => b.contains x) && b.all (fun x => a.contains x)

/-- Inputs of the survey-identifier reconciliation block (lines 87-95 of
`read_metadata`): the dataset's own `survey_id` attribute (`none` when the
netCDF file has no such attribute, so that reading it raises
`AttributeError`) and the merged `['Survey', 'SURVEYID']` value sourced from
the external registry (`none` when absent, so that `.split` raises
`AttributeError`). -/
structure SurveyIdEnv where
  netcdf_survey_id : Option String
  survey_id : Option String

/-- Outcome of the reconciliation block: the dataset attribute afterwards,
whether a write-back (with `sync()`) happened, and the consistency faults
surfaced to the caller. -/
structure SurveyIdResult where
  new_netcdf_survey_id : Option String
  wrote : Bool
  faults : List String
deriving DecidableEq

/-- Lines 87-95 of `read_metadata`: inside `try`, read the dataset attribute
(raises when absent), parse both identifier strings as integer sets (raises
on unparsable segments or a `None` registry value) and assert the two sets
are equal (raises `AssertionError` when they differ); the bare `except:`
catches *every* one of these exceptions and overwrites the dataset attribute
with `str(survey_id)`, surfacing nothing — the `faults` list is empty on
every path. -/
def reconcile_survey_id (env : SurveyIdEnv) : SurveyIdResult :=
  let tryResult : Except Unit Unit :=
    match env.netcdf_survey_id with
    | none => .error ()
    | some ds =>
      match parseSurveyIdList ds with
      | .error _ => .error ()
      | .ok dsList =>
        match env.survey_id with
        | none => .error ()
        | some sv =>
          match parseSurveyIdList sv with
          | .error _ => .error ()
          | .ok svList =>
            if intSetEq dsList svList then .ok () else .error ()
  match tryResult with
  | .ok _ =>
    { new_netcdf_survey_id := env.netcdf_survey_id, wrote := false,
      faults := [] }
  | .error _ =>
    { new_netcdf_survey_id := some (pyStr env.survey_id), wrote := true,
      faults := [] }

/-- C2 (code bug): the dataset's attribute store asserts survey id `1`, the
registry asserts `2` — the sets disagree, the assertion fires, but the bare
`except:` swallows the `AssertionError`: the registry value silently
*overwrites* the store's value and no consistency fault reaches the caller,
contradicting both the spec and the assertion's own error message. -/
theorem reconcile_survey_id_overwrites_on_conflict :
    reconcile_survey_id { netcdf_survey_id := some "1", survey_id := some "2" } =
      { new_netcdf_survey_id := some "2", wrote := true, faults := [] } ∧
    parseSurveyIdList "1" = .ok [1] ∧
    parseSurveyIdList "2" = .ok [2] ∧
    intSetEq [1] [2] = false :=
  ⟨rfl, rfl, rfl, rfl⟩

/-! ## Date parsing (metadata_record_creator.py)

`str2datetimelist` tries each comma-separated segment against a fixed
priority list of `datetime.strptime` formats.  Each format is embedded as a
parser over the segment's characters, mirroring CPython's `_strptime`
regexes: `%d`/`%m`/`%H`/`%M`/`%S`/`%y` match one or two digits (all
separators in these formats are non-digits, so greedy matching without
backtracking coincides with the regex engine), `%Y` matches exactly four
digits, `%b` a three-letter month abbreviation case-insensitively, `%f` one
to six digits, `%z` `Z` or a `[+-]HH[:]MM` offset (offset-with-seconds forms
are not modelled), with `datetime()`'s range validation applied afterwards.
Only the date component is retained: the callers below consume
`.date()` values, which the time-of-day and offset never affect. -/

structure PyDate where
  year : Nat
  month : Nat
  day : Nat
deriving DecidableEq

/-- Python `date` strict ordering (lexicographic on year, month, day). -/
def PyDate.lt (a b : PyDate) : Bool :=
  a.year < b.year || (a.year = b.year &&
    (a.month < b.month || (a.month = b.month && a.day < b.day)))

theorem PyDate.lt_irrefl (a : PyDate) : PyDate.lt a a = false := by
  simp [PyDate.lt]

theorem PyDate.lt_trans' (a b c : PyDate) (h1 : PyDate.lt a b = true)
    (h2 : PyDate.lt b c = true) : PyDate.lt a c = true := by
  obtain ⟨ay, am, ad⟩ := a
  obtain ⟨by', bm, bd⟩ := b
  obtain ⟨cy, cm, cd⟩ := c
  simp only [PyDate.lt, Bool.or_eq_true, Bool.and_eq_true,
    decide_eq_true_eq] at *
  omega

theorem PyDate.lt_chain (a b c : PyDate) (h1 : PyDate.lt a b = true)
    (h2 : PyDate.lt c b = false) : PyDate.lt a c = true := by
  obtain ⟨ay, am, ad⟩ := a
  obtain ⟨by', bm, bd⟩ := b
  obtain ⟨cy, cm, cd⟩ := c
  rw [← Bool.not_eq_true] at h2
  simp only [PyDate.lt, Bool.or_eq_true, Bool.and_eq_true,
    decide_eq_true_eq] at *
  omega

def isLeapYear (y : Nat) : Bool :=
  (y % 4 = 0 && y % 100 ≠ 0) || y % 400 = 0

def daysInMonth (y m : Nat) : Nat :=
  if m = 2 then (if isLeapYear y then 29 else 28)
  else if m = 4 || m = 6 || m = 9 || m = 11 then 30
  else 31

/-- The range validation performed by the `datetime(...)` constructor. -/
def validDate (y m d : Nat) : Bool :=
  1 ≤ y && y ≤ 9999 && 1 ≤ m && m ≤ 12 && 1 ≤ d && d ≤ daysInMonth y m

def validTime (hh mi ss : Nat) : Bool := hh ≤ 23 && mi ≤ 59 && ss ≤ 59

def digitVal (c : Char) : Option Nat :=
  if c.isDigit then some (c.toNat - 48) else none

/-- `\d{1,2}`, greedy. -/
def parse12 : List Char → Option (Nat × List Char)
  | [] => none
  | c1 :: rest1 =>
    match digitVal c1 with
    | none => none
    | some d1 =>
      match rest1 with
      | [] => some (d1, [])
      | c2 :: rest2 =>
        match digitVal c2 with
        | none => some (d1, rest1)
        | some d2 => some (d1 * 10 + d2, rest2)

/-- `\d\d\d\d` (`%Y`). -/
def parse4 : List Char → Option (Nat × List Char)
  | c1 :: c2 :: c3 :: c4 :: rest => do
    let d1 ← digitVal c1
    let d2 ← digitVal c2
    let d3 ← digitVal c3
    let d4 ← digitVal c4
    pure (((d1 * 10 + d2) * 10 + d3) * 10 + d4, rest)
  | _ => none

/-- `\d{1,6}` (`%f`); the microsecond value never affects the date. -/
def parseMicro (l : List Char) : Option (List Char) :=
  let ds := l.takeWhile Char.isDigit
  if ds.length = 0 || 6 < ds.length then none
  else some (l.drop ds.length)

def monthOfAbbrev (a b c : Char) : Option Nat :=
  let s := [a.toLower, b.toLower, c.toLower]
  if s = ['j', 'a', 'n'] then some 1
  else if s = ['f', 'e', 'b'] then some 2
  else if s = ['m', 'a', 'r'] then some 3
  else if s = ['a', 'p', 'r'] then some 4
  else if s = ['m', 'a', 'y'] then some 5
  else if s = ['j', 'u', 'n'] then some 6
  else if s = ['j', 'u', 'l'] then some 7
  else if s = ['a', 'u', 'g'] then some 8
  else if s = ['s', 'e', 'p'] then some 9
  else if s = ['o', 'c', 't'] then some 10
  else if s = ['n', 'o', 'v'] then some 11
  else if s = ['d', 'e', 'c'] then some 12
  else none

/-- `%b`: a three-letter month abbreviation, case-insensitive. -/
def parseMonthAbbrev : List Char → Option (Nat × List Char)
  | a :: b :: c :: rest => (monthOfAbbrev a b c).map (fun m => (m, rest))
  | _ => none

def parseLit (c : Char) : List Char → Option (List Char)
  | x :: rest => if x = c then some rest else none
  | [] => none

/-- `%z`: `Z`, or sign, two hour digits (offset below 24 hours), optional
colon, minutes `[0-5]\d`. -/
def parseTz : List Char → Option (List Char)
  | 'Z' :: rest => some rest
  | sgn :: rest =>
    if sgn = '+' || sgn = '-' then
      match rest with
      | h1 :: h2 :: rest2 => do
        let d1 ← digitVal h1
        let d2 ← digitVal h2
        let rest3 := match rest2 with
          | ':' :: r => r
          | r => r
        match rest3 with
        | m1 :: m2 :: rest4 => do
          let e1 ← digitVal m1
          let _ ← digitVal m2
          if d1 * 10 + d2 ≤ 23 && e1 ≤ 5 then some rest4 else none
        | _ => none
      | _ => none
    else none
  | [] => none

/-- `%y` pivot: 00-68 map to 2000-2068, 69-99 to 1969-1999. -/
def yearOfY2 (y2 : Nat) : Nat := if y2 ≤ 68 then 2000 + y2 else 1900 + y2

/-- `'%d-%b-%y'`. -/
def parseFmtA (l : List Char) : Option PyDate := do
  let (d, l1) ← parse12 l
  let l2 ← parseLit '-' l1
  let (m, l3) ← parseMonthAbbrev l2
  let l4 ← parseLit '-' l3
  let (y2, l5) ← parse12 l4
  if l5 = [] then
    let y := yearOfY2 y2
    if validDate y m d then pure ⟨y, m, d⟩ else none
  else none

/-- The `'%Y-%m-%dT%H:%M:%S'` prefix common to the four ISO-style formats. -/
def parseDateTimeCore (l : List Char) :
    Option (Nat × Nat × Nat × Nat × Nat × Nat × List Char) := do
  let (y, l1) ← parse4 l
  let l2 ← parseLit '-' l1
  let (mo, l3) ← parse12 l2
  let l4 ← parseLit '-' l3
  let (d, l5) ← parse12 l4
  let l6 ← parseLit 'T' l5
  let (hh, l7) ← parse12 l6
  let l8 ← parseLit ':' l7
  let (mi, l9) ← parse12 l8
  let l10 ← parseLit ':' l9
  let (ss, l11) ← parse12 l10
  pure (y, mo, d, hh, mi, ss, l11)

def finishDate (y mo d hh mi ss : Nat) : Option PyDate :=
  if validDate y mo d && validTime hh mi ss then some ⟨y, mo, d⟩ else none

/-- `'%Y-%m-%dT%H:%M:%S'`. -/
def parseFmtB (l : List Char) : Option PyDate := do
  let (y, mo, d, hh, mi, ss, rest) ← parseDateTimeCore l
  if rest = [] then finishDate y mo d hh mi ss else none

/-- `'%Y-%m-%dT%H:%M:%S.%f'`. -/
def parseFmtC (l : List Char) : Option PyDate := do
  let (y, mo, d, hh, mi, ss, rest) ← parseDateTimeCore l
  let rest1 ← parseLit '.' rest
  let rest2 ← parseMicro rest1
  if rest2 = [] then finishDate y mo d hh mi ss else none

/-- `'%Y-%m-%dT%H:%M:%S%z'`. -/
def parseFmtD (l : List Char) : Option PyDate := do
  let (y, mo, d, hh, mi, ss, rest) ← parseDateTimeCore l
  let rest1 ← parseTz rest
  if rest1 = [] then finishDate y mo d hh mi ss else none

/-- `'%Y-%m-%dT%H:%M:%S.%f%z'`. -/
def parseFmtE (l : List Char) : Option PyDate := do
  let (y, mo, d, hh, mi, ss, rest) ← parseDateTimeCore l
  let rest1 ← parseLit '.' rest
  let rest2 ← parseMicro rest1
  let rest3 ← parseTz rest2
  if rest3 = [] then finishDate y mo d hh mi ss else none

/-- The `datetime_format_list` of `str2datetimelist`, in priority order. -/
def datetime_format_list : List (List Char → Option PyDate) :=
  [parseFmtA, parseFmtB, parseFmtC, parseFmtD, parseFmtE]

/-- One comma-separated segment: `datetime_string.strip()` is tried against
each format in order; the first success wins (`break`), and a segment no
format parses contributes nothing (`except: continue`). -/
def parseDateSegment (seg : String) : Option PyDate :=
  datetime_format_list.foldl
    (fun acc p =>
      match acc with
      | some d => some d
      | none => p (pyStrip seg).data) none

/-- `str2datelist` (via `str2datetimelist`): parse every comma-separated
segment, keeping the successfully parsed dates in order. -/
def str2datelist (multi_date_string : String) : List PyDate :=
  (pySplitComma multi_date_string).filterMap parseDateSegment

/-- Python `min()` over a date list: `ValueError` on an empty list, otherwise
the first minimal element. -/
def pyMinDates : List PyDate → Except Unit PyDate
  | [] => .error ()
  | x :: xs => .ok (xs.foldl (fun a b => if PyDate.lt b a then b else a) x)

def pad2 (n : Nat) : String := if n < 10 then "0" ++ toString n else toString n

def pad4 (n : Nat) : String :=
  if n < 10 then "000" ++ toString n
  else if n < 100 then "00" ++ toString n
  else if n < 1000 then "0" ++ toString n
  else toString n

/-- `date.isoformat()`. -/
def PyDate.isoformat (d : PyDate) : String :=
  pad4 d.year ++ "-" ++ pad2 d.month ++ "-" ++ pad2 d.day

/-- Lines 168-171 of `populate_template_values`:
`calculated_values['START_DATE']` is
`min(str2datelist(str(get_metadata(['Survey', 'STARTDATE'])))).isoformat()`
guarded by `except ValueError: START_DATE = None` — `min([])` is the only
raiser, so an unparsable or absent source degrades to the `None` sentinel. -/
def startDateCalc (startdate_value : Option String) : Option String :=
  match pyMinDates (str2datelist (pyStr startdate_value)) with
  | .ok d => some d.isoformat
  | .error _ => none

theorem foldl_min_mem (x : PyDate) (xs : List PyDate) :
    xs.foldl (fun a b => if PyDate.lt b a then b else a) x ∈ x :: xs := by
  induction xs generalizing x with
  | nil => simp
  | cons b bs ih =>
    simp only [List.foldl_cons]
    have hih := ih (if PyDate.lt b x then b else x)
    rcases List.mem_cons.mp hih with h | h
    · rw [h]
      split
      · exact List.mem_cons_of_mem _ (List.mem_cons_self _ _)
      · exact List.mem_cons_self _ _
    · exact List.mem_cons_of_mem _ (List.mem_cons_of_mem _ h)

theorem foldl_min_lb (x : PyDate) (xs : List PyDate) :
    ∀ e ∈ x :: xs,
      PyDate.lt e (xs.foldl (fun a b => if PyDate.lt b a then b else a) x) =
        false := by
  induction xs generalizing x with
  | nil =>
    intro e he
    simp only [List.mem_singleton] at he
    subst he
    exact PyDate.lt_irrefl e
  | cons b bs ih =>
    intro e he
    simp only [List.foldl_cons]
    by_cases hbx : PyDate.lt b x = true
    · rw [if_pos hbx]
      rcases List.mem_cons.mp he with rfl | he2
      · have hbm := ih b b (List.mem_cons_self b bs)
        by_contra hxm
        simp only [Bool.not_eq_false] at hxm
        have htr := PyDate.lt_trans' b e _ hbx hxm
        simp [hbm] at htr
      · exact ih b e he2
    · rw [if_neg hbx]
      rcases List.mem_cons.mp he with rfl | he2
      · exact ih e e (List.mem_cons_self e bs)
      · rcases List.mem_cons.mp he2 with rfl | he3
        · by_contra hbm
          simp only [Bool.not_eq_false] at hbm
          have hxm := ih x x (List.mem_cons_self x bs)
          have hch := PyDate.lt_chain e _ x hbm hxm
          simp [hch] at hbx
        · exact ih x e (List.mem_cons_of_mem _ he3)

/-- C9: `START_DATE` is the `None` sentinel exactly when no comma-separated
segment of the `STARTDATE` source parses under any of the five formats
(including the absent-source case, where `str(None)` is parsed); otherwise it
is the ISO form of the earliest parsed date.  The computation is total — the
only exception (`ValueError` from `min([])`) is caught. -/
theorem start_date_derivation (v : Option String) :
    (startDateCalc v = none ↔
      ∀ seg ∈ pySplitComma (pyStr v), parseDateSegment seg = none) ∧
    (str2datelist (pyStr v) ≠ [] →
      ∃ d ∈ str2datelist (pyStr v),
        (∀ e ∈ str2datelist (pyStr v), PyDate.lt e d = false) ∧
        startDateCalc v = some d.isoformat) := by
  have hiff : str2datelist (pyStr v) = [] ↔
      ∀ seg ∈ pySplitComma (pyStr v), parseDateSegment seg = none := by
    unfold str2datelist
    exact List.filterMap_eq_nil_iff
  constructor
  · unfold startDateCalc
    cases hl : str2datelist (pyStr v) with
    | nil =>
      simp only [pyMinDates]
      exact ⟨fun _ => hiff.mp hl, fun _ => by trivial⟩
    | cons x xs =>
      simp only [pyMinDates]
      constructor
      · intro h
        exact absurd h (by simp)
      · intro hall
        have hn := hiff.mpr hall
        rw [hl] at hn
        exact absurd hn (by simp)
  · intro hne
    cases hl : str2datelist (pyStr v) with
    | nil => exact absurd hl hne
    | cons x xs =>
      refine ⟨xs.foldl (fun a b => if PyDate.lt b a then b else a) x,
        ?_, ?_, ?_⟩
      · exact foldl_min_mem x xs
      · intro e he
        exact foldl_min_lb x xs e he
      · unfold startDateCalc
        rw [hl]
        simp [pyMinDates]

/-- Witness for C9 on the spec's scenario `"01-Jan-10, 15-Mar-10"`: the
segment list parses, and `START_DATE` is the ISO form of the earliest date. -/
theorem start_date_derivation_witness :
    str2datelist (pyStr (some "01-Jan-10, 15-Mar-10")) ≠ [] ∧
    ∃ d ∈ str2datelist (pyStr (some "01-Jan-10, 15-Mar-10")),
      (∀ e ∈ str2datelist (pyStr (some "01-Jan-10, 15-Mar-10")),
        PyDate.lt e d = false) ∧
      startDateCalc (some "01-Jan-10, 15-Mar-10") = some d.isoformat :=
  ⟨by decide, (start_date_derivation (some "01-Jan-10, 15-Mar-10")).2
    (by decide)⟩
